import Mathlib

/-!
Shallow embedding of the video-summarizer service (`src/app.py`) and proofs
about its ingest pipeline: the upload-extension check (`allowed_file`), the
ordered download-strategy fallback (`download_youtube_video`), audio
extraction (`extract_audio`), transcription (`transcribe_audio`), the
summarizer (`summarize_text`) and the request orchestration with its cleanup
loop (`summarize_video`).

External collaborators (yt-dlp, moviepy, whisper, the chat-completion API)
are modelled as oracles in an `Env` record; the filesystem is modelled as a
function from paths to `none` (absent), `some false` (regular file) or
`some true` (directory).  Python strings are Lean `String`s; Python `None` /
empty-string truthiness is modelled with `Option` plus explicit truthiness
functions.
-/

set_option maxHeartbeats 1000000

namespace VidSum

/-- Python `s.lower()` (ASCII case folding, which is all the code relies on). -/
def pyLower (s : String) : String := String.mk (s.data.map Char.toLower)

/-- Python `c in s` for a single character. -/
def pyHasChar (s : String) (c : Char) : Bool := s.data.contains c

/-- Worker for Python `s.split(sep)` with a non-empty separator: scan left to
right, cutting at each non-overlapping occurrence of `sep`.  `fuel` is the
remaining input length (each step consumes at least one character), keeping
the recursion structural so that concrete instances evaluate. -/
def pySplitAux (sep : List Char) : Nat → List Char → List Char → List (List Char)
  | _, [], acc => [acc.reverse]
  | 0, s, acc => [acc.reverse ++ s]
  | fuel + 1, c :: rest, acc =>
      if sep.isPrefixOf (c :: rest) then
        acc.reverse :: pySplitAux sep fuel ((c :: rest).drop sep.length) []
      else pySplitAux sep fuel rest (c :: acc)

/-- Python `s.split(sep)` (the code only ever splits on non-empty literals). -/
def pySplit (sep s : String) : List String :=
  (pySplitAux sep.data s.data.length s.data []).map String.mk

/-- Python `sep.join(l)`. -/
def pyJoin (sep : String) : List String → String
  | [] => ""
  | [x] => x
  | x :: y :: xs => x ++ sep ++ pyJoin sep (y :: xs)

/-- Python `filename.rsplit('.', 1)[1]`: the part after the last dot
(meaningful only when the string contains a dot). -/
def afterLastDot (s : String) : String := (pySplit "." s).getLastD ""

/-- Python `p.rsplit('.', 1)[0]`: everything before the last dot, or the whole
string when there is no dot. -/
def beforeLastDot (p : String) : String :=
  let parts := pySplit "." p
  if parts.length ≤ 1 then p else pyJoin "." parts.dropLast

/-- `os.path.dirname`: everything strictly before the last `/`, empty if none. -/
def dirname (p : String) : String :=
  String.mk ((p.data.reverse.dropWhile (fun c => c ≠ '/')).drop 1).reverse

/-- `os.path.join a b` on POSIX: `b` if `b` is absolute, else `a ++ "/" ++ b`. -/
def osPathJoin (a b : String) : String :=
  if b.data.head? = some '/' then b else a ++ "/" ++ b

/-- `os.path.basename`-like helper: the part after the last `/`. -/
def pathTail (p : String) : String := (pySplit "/" p).getLastD ""

/-- `os.path.splitext(p)[1]`: the extension (with its dot) of the last path
component; leading dots of the component do not start an extension. -/
def splitextExt (p : String) : String :=
  let b := pathTail p
  let stripped := String.mk (b.data.dropWhile (fun c => c = '.'))
  if pyHasChar stripped '.' then "." ++ afterLastDot stripped else ""

/-- Python slice `l[a:b]` for lists (with the usual clamping). -/
def pySlice (a b : Nat) (l : List α) : List α := (l.take b).drop a

/-- `ALLOWED_EXTENSIONS = {'mp4', 'avi', 'mov', 'mkv', 'webm', 'flv', 'wmv'}` -/
def ALLOWED_EXTENSIONS : List String := ["mp4", "avi", "mov", "mkv", "webm", "flv", "wmv"]

/-- `allowed_file` (src/app.py:57-58):
`'.' in filename and filename.rsplit('.', 1)[1].lower() in ALLOWED_EXTENSIONS`. -/
def allowed_file (filename : String) : Bool :=
  pyHasChar filename '.' && ALLOWED_EXTENSIONS.contains (pyLower (afterLastDot filename))

/-- A JSON value as Python would hand it to the handler (the subset the
request fields can take; container values are not needed by any claim). -/
inductive JsonVal
  | jnull
  | jbool (b : Bool)
  | jnum (n : Int)
  | jstr (s : String)
deriving DecidableEq

/-- Python truthiness of a JSON value. -/
def JsonVal.truthy : JsonVal → Bool
  | .jnull => false
  | .jbool b => b
  | .jnum n => n ≠ 0
  | .jstr s => s ≠ ""

/-- A JSON request body: `request.json` with its `youtube_url` and
`use_openai` entries (absent entries are `none`). -/
structure JsonBody where
  youtube_url : Option String
  use_openai : Option JsonVal
deriving DecidableEq

/-- A multipart-form request body: `request.form` / `request.files`.
`video_file` is the declared filename of the uploaded file, `none` when the
field is missing. -/
structure FormBody where
  youtube_url : Option String
  video_file : Option String
  use_openai : Option String
deriving DecidableEq

/-- An incoming request: either JSON or form-encoded (src/app.py:245-253). -/
inductive Request
  | json (b : JsonBody)
  | form (b : FormBody)
deriving DecidableEq

/-- The `youtube_url` the handler reads (for JSON: `data.get('youtube_url')`;
for forms: `request.form.get('youtube_url')`). -/
def Request.youtubeUrl : Request → Option String
  | .json b => b.youtube_url
  | .form b => b.youtube_url

/-- The uploaded file's filename: JSON requests set `video_file = None`. -/
def Request.videoFile : Request → Option String
  | .json _ => none
  | .form b => b.video_file

/-- Form parsing of the flag:
`request.form.get('use_openai', 'false').lower() == 'true'`. -/
def formUseOpenai (v : Option String) : Bool := pyLower (v.getD "false") == "true"

/-- The `use_openai` value the handler ends up with: for JSON bodies the raw
JSON value (`data.get('use_openai', False)`), for forms a genuine boolean. -/
def Request.useOpenaiVal : Request → JsonVal
  | .json b => b.use_openai.getD (.jbool false)
  | .form b => .jbool (formUseOpenai b.use_openai)

/-- Python truthiness of an optional string (`if youtube_url:`,
`video_file.filename` truthiness). -/
def strTruthy : Option String → Bool
  | none => false
  | some s => s ≠ ""

/-- Outcome of running one yt-dlp download strategy (src/app.py:117-154):
either `extract_info` raises (`err`), or it completes and the file-location
logic finds an existing produced file with the given name inside the scratch
directory (`found`), or it completes but no produced file is found on disk,
in which case the loop silently moves on (`notFound`). -/
inductive DLOutcome
  | err (msg : String)
  | found (name : String)
  | notFound
deriving DecidableEq

/-- One download configuration from the `strategies` list (src/app.py:65-106):
its yt-dlp format selector, whether it carries the FFmpegExtractAudio
postprocessor, and its `player_client` identities. -/
structure Strategy where
  format : String
  extractsAudio : Bool
  playerClient : List String
deriving DecidableEq

/-- The four download strategies, in source order (src/app.py:65-106). -/
def strategies : List Strategy :=
  [ ⟨"bestaudio/best", true, ["android"]⟩,
    ⟨"best[height<=720]/best", false, ["android", "web"]⟩,
    ⟨"best[height<=480]/best", false, ["ios"]⟩,
    ⟨"worst", false, []⟩ ]

/-- The error message an attempt recorded, if it raised. -/
def dlErrMsg : DLOutcome → Option String
  | .err m => some m
  | _ => none

/-- Whether an attempt succeeded (returned an existing file). -/
def DLOutcome.isFound : DLOutcome → Bool
  | .found _ => true
  | _ => false

/-- Python `f"{x}"` on an optional string (`None` prints as `"None"`). -/
def pyShowOpt : Option String → String
  | some s => s
  | none => "None"

/-- The exception message raised when every strategy has been exhausted
(src/app.py:156). -/
def failMsg (lastError : Option String) : String :=
  "Error downloading YouTube video. All strategies failed. Last error: " ++
    pyShowOpt lastError ++ ". Please try again or upload the video file directly."

/-- The strategy loop of `download_youtube_video` (src/app.py:116-156), run
over the per-strategy outcomes with the `last_error` accumulator; it also
counts how many strategies were attempted.  An `err` outcome records its
message in `last_error` and moves on; a `found` outcome returns immediately;
a `notFound` outcome moves on without touching `last_error`.  When the list
is exhausted the final exception carries `last_error`. -/
def downloadAttempts : List DLOutcome → Option String → Except String String × Nat
  | [], lastError => (.error (failMsg lastError), 0)
  | .err m :: rest, _ =>
      let r := downloadAttempts rest (some m)
      (r.1, r.2 + 1)
  | .found p :: _, _ => (.ok p, 1)
  | .notFound :: rest, lastError =>
      let r := downloadAttempts rest lastError
      (r.1, r.2 + 1)

/-- The full path of a file produced inside the scratch directory
(`os.path.join(temp_dir, name)`). -/
def dlPath (tempDir name : String) : String := osPathJoin tempDir name

/-- Resolve a strategy outcome's file name against the scratch directory. -/
def DLOutcome.withDir (tempDir : String) : DLOutcome → DLOutcome
  | .found name => .found (dlPath tempDir name)
  | o => o

/-- The external oracles of one request: the per-strategy downloader outcome,
whether moviepy raises on a given video path, whisper's result on a given
audio path, the `OPENAI_API_KEY` environment variable, and the
chat-completion call's result on a given transcript. -/
structure Env where
  dl : Nat → DLOutcome
  extractRaises : String → Option String
  transcribeRes : String → Except String String
  apiKey : Option String
  openaiCall : String → Except String String

/-- The outcomes of the four strategies for this request, files resolved
against the request's scratch directory. -/
def strategyOutcomes (env : Env) (tempDir : String) : List DLOutcome :=
  (List.range strategies.length).map (fun i => (env.dl i).withDir tempDir)

/-- `download_youtube_video` (src/app.py:60-156): create the scratch
directory, then run the strategy loop; returns the downloaded file's path or
the raised exception's message. -/
def download_youtube_video (env : Env) (tempDir : String) : Except String String :=
  (downloadAttempts (strategyOutcomes env tempDir) none).1

/-- The filesystem: `none` = path absent, `some false` = regular file,
`some true` = directory. -/
def FS : Type := String → Option Bool

/-- The empty filesystem (no request-created paths yet). -/
def FS.empty : FS := fun _ => none

/-- Create or overwrite a path. -/
def FS.set (fs : FS) (p : String) (v : Option Bool) : FS :=
  fun q => if q = p then v else fs q

/-- Does `q` live strictly inside directory `d`? -/
def underDir (d q : String) : Bool := (d ++ "/").data.isPrefixOf q.data

/-- `os.remove p`. -/
def FS.removeFile (fs : FS) (p : String) : FS :=
  fun q => if q = p then none else fs q

/-- `shutil.rmtree p`: removes the directory and everything under it. -/
def FS.rmtree (fs : FS) (p : String) : FS :=
  fun q => if q = p ∨ underDir p q then none else fs q

/-- One iteration of the cleanup loop (src/app.py:303-311):
`if os.path.isfile(p): os.remove(p) elif os.path.isdir(p): shutil.rmtree(p)`
(deletion errors are swallowed; the model's deletions succeed). -/
def cleanupOne (fs : FS) (p : String) : FS :=
  match fs p with
  | some false => fs.removeFile p
  | some true => fs.rmtree p
  | none => fs

/-- The whole cleanup loop over the request's `temp_files` list. -/
def cleanupAll (fs : FS) (l : List String) : FS := l.foldl cleanupOne fs

/-- `extract_audio` (src/app.py:158-177): moviepy either raises (wrapped into
the `Error extracting audio:` message) or writes
`video_path.rsplit('.', 1)[0] + '_audio.wav'`. -/
def extract_audio (env : Env) (video_path : String) : Except String String :=
  match env.extractRaises video_path with
  | some e => .error ("Error extracting audio: " ++ e)
  | none => .ok (beforeLastDot video_path ++ "_audio.wav")

/-- `transcribe_audio` (src/app.py:179-210): whisper's result, errors wrapped
into the `Error transcribing audio:` message. -/
def transcribe_audio (env : Env) (audio_path : String) : Except String String :=
  match env.transcribeRes audio_path with
  | .ok t => .ok t
  | .error e => .error ("Error transcribing audio: " ++ e)

/-- The local summarization branch of `summarize_text` (src/app.py:229-235):
split on `". "`; with more than 5 sentences return the first three joined
with `". "`, a trailing period, and a `Key points` bullet list of
`sentences[3:8]`; otherwise return the text unchanged. -/
def localSummarize (text : String) : String :=
  let sentences := pySplit ". " text
  if sentences.length > 5 then
    pyJoin ". " (pySlice 0 3 sentences) ++ "." ++
      "\n\nKey points:\n- " ++ pyJoin "\n- " (pySlice 3 8 sentences)
  else text

/-- Whether `os.getenv("OPENAI_API_KEY")` is truthy (set and non-empty). -/
def hasApiKey (env : Env) : Bool :=
  match env.apiKey with
  | some s => s ≠ ""
  | none => false

/-- `summarize_text` (src/app.py:212-235).  `use_openai` is the raw value the
handler parsed (a JSON value for JSON bodies); the code tests its truthiness.
Any error from the chat-completion call is swallowed and the local method
runs instead. -/
def summarize_text (env : Env) (text : String) (use_openai : JsonVal) : String :=
  if use_openai.truthy && hasApiKey env then
    match env.openaiCall text with
    | .ok s => s
    | .error _ => localSummarize text
  else localSummarize text

/-- The audio extensions checked after a download (src/app.py:267). -/
def audio_extensions : List String := [".wav", ".m4a", ".mp3", ".opus", ".ogg"]

/-- Observable pipeline actions of one request, in order. -/
inductive Event
  | download
  | saveUpload (path : String)
  | extract (videoPath : String)
  | transcribe (audioPath : String)
deriving DecidableEq

/-- The HTTP response of `/api/summarize`: 200 with transcript and summary,
400 (validation), or 500 (pipeline failure). -/
inductive Response
  | ok (transcript summary : String)
  | clientErr (msg : String)
  | serverErr (msg : String)
deriving DecidableEq

/-- What one run of the handler produced: the response, the `temp_files`
cleanup list as it stood when the handler returned, the final filesystem
(restricted to request-created paths), and the pipeline actions performed. -/
structure RunResult where
  response : Response
  registered : List String
  fs : FS
  events : List Event

/-- src/app.py:279 -/
def invalidTypeMsg : String :=
  "Invalid file type. Allowed types: mp4, avi, mov, mkv, webm, flv, wmv"

/-- src/app.py:286 -/
def noSourceMsg : String := "Please provide either a YouTube URL or upload a video file"

/-- The tail of the handler from transcription onwards (src/app.py:294-317):
transcribe, summarize, then run the cleanup loop and answer 200; a
transcription error propagates to the `except` and answers 500 with no
cleanup. -/
def transcribeAndSummarize (env : Env) (fs : FS) (registered : List String)
    (events : List Event) (audio_path : String) (use_openai : JsonVal) : RunResult :=
  match transcribe_audio env audio_path with
  | .error m => ⟨.serverErr m, registered, fs, events ++ [.transcribe audio_path]⟩
  | .ok transcript =>
      ⟨.ok transcript (summarize_text env transcript use_openai), registered,
        cleanupAll fs registered, events ++ [.transcribe audio_path]⟩

/-- The handler from the `if not audio_path:` check onwards
(src/app.py:288-317): extract audio when the resolver produced a video
(registering the audio file), then transcribe and summarize.  An extraction
error propagates to the `except` and answers 500 with no cleanup.
(`audio_path`, when set, is a non-empty path, so `Option` truthiness is
exact; `video_path` is always set when `audio_path` is not.) -/
def pipelineRest (env : Env) (fs : FS) (registered : List String) (events : List Event)
    (audio_path : Option String) (video_path : Option String)
    (use_openai : JsonVal) : RunResult :=
  match audio_path with
  | some a => transcribeAndSummarize env fs registered events a use_openai
  | none =>
      let v := video_path.getD ""
      match extract_audio env v with
      | .error m => ⟨.serverErr m, registered, fs, events ++ [.extract v]⟩
      | .ok a =>
          transcribeAndSummarize env (fs.set a (some false)) (registered ++ [a])
            (events ++ [.extract v]) a use_openai

/-- The `/api/summarize` handler `summarize_video` (src/app.py:241-320).
`tempDir` is the fresh directory `tempfile.mkdtemp(dir='temp')` returns for
this request.  Any raised exception is answered as a 500 by the surrounding
`except`, skipping the cleanup loop. -/
def summarize_video (env : Env) (tempDir : String) (req : Request) : RunResult :=
  let use_openai := req.useOpenaiVal
  if strTruthy req.youtubeUrl then
    let fs0 : FS := FS.empty.set tempDir (some true)
    match download_youtube_video env tempDir with
    | .error m => ⟨.serverErr m, [], fs0, [.download]⟩
    | .ok downloaded_file =>
        let fs1 := fs0.set downloaded_file (some false)
        let registered := [downloaded_file, dirname downloaded_file]
        if audio_extensions.contains (pyLower (splitextExt downloaded_file)) then
          pipelineRest env fs1 registered [.download] (some downloaded_file) none use_openai
        else
          pipelineRest env fs1 registered [.download] none (some downloaded_file) use_openai
  else
    match req.videoFile with
    | some fname =>
        if fname ≠ "" then
          if ¬ allowed_file fname then
            ⟨.clientErr invalidTypeMsg, [], FS.empty, []⟩
          else
            let video_path := osPathJoin "uploads" fname
            pipelineRest env (FS.empty.set video_path (some false)) [video_path]
              [.saveUpload video_path] none (some video_path) use_openai
        else ⟨.clientErr noSourceMsg, [], FS.empty, []⟩
    | none => ⟨.clientErr noSourceMsg, [], FS.empty, []⟩

/-! ### Concrete oracle environments used as witnesses -/

/-- Downloader succeeds at the first strategy with `vid.mp4`; extraction and
transcription succeed; no API key. -/
def envOkDl : Env :=
  ⟨fun _ => .found "vid.mp4", fun _ => none, fun _ => .ok "hello world", none,
    fun _ => .error "down"⟩

/-- Downloader succeeds, extraction succeeds, transcription raises `boom`. -/
def envTransFail : Env :=
  ⟨fun _ => .found "vid.mp4", fun _ => none, fun _ => .error "boom", none,
    fun _ => .error "down"⟩

/-- A JSON request carrying only a URL. -/
def reqJsonUrl : Request := .json ⟨some "http://y", none⟩

/-! ### Cleanup-loop lemmas -/

/-- After the cleanup loop handles `p`, the path `p` is gone. -/
theorem cleanupOne_self (fs : FS) (p : String) : cleanupOne fs p p = none := by
  unfold cleanupOne
  cases h : fs p with
  | none => exact h
  | some b => cases b <;> simp [FS.removeFile, FS.rmtree]

/-- The cleanup loop never re-creates a path. -/
theorem cleanupOne_none (fs : FS) (p q : String) (h : fs q = none) :
    cleanupOne fs p q = none := by
  unfold cleanupOne
  cases hp : fs p with
  | none => exact h
  | some b =>
      cases b <;> simp only [FS.removeFile, FS.rmtree] <;> split <;> simp [h]

/-- Absence of a path is preserved across the whole cleanup loop. -/
theorem cleanupAll_none (fs : FS) (l : List String) (q : String) (h : fs q = none) :
    cleanupAll fs l q = none := by
  induction l generalizing fs with
  | nil => exact h
  | cons p rest ih =>
      simp only [cleanupAll, List.foldl_cons] at *
      exact ih _ (cleanupOne_none fs p q h)

/-- Every path on the cleanup list is absent once the loop has run. -/
theorem cleanupAll_mem (fs : FS) (l : List String) (p : String) (h : p ∈ l) :
    cleanupAll fs l p = none := by
  induction l generalizing fs with
  | nil => cases h
  | cons q rest ih =>
      simp only [cleanupAll, List.foldl_cons]
      rcases List.mem_cons.mp h with rfl | hm
      · exact cleanupAll_none _ rest p (cleanupOne_self fs p)
      · exact ih _ hm

/-- A run is clean when, if it answered 200, every path it registered for
cleanup is absent from the final filesystem. -/
def Clean (r : RunResult) : Prop :=
  ∀ t s, r.response = .ok t s → ∀ p ∈ r.registered, r.fs p = none

theorem tas_clean (env : Env) (fs : FS) (registered : List String) (events : List Event)
    (a : String) (uo : JsonVal) :
    Clean (transcribeAndSummarize env fs registered events a uo) := by
  unfold Clean transcribeAndSummarize
  cases transcribe_audio env a with
  | error m => intro t s h; simp at h
  | ok tr => intro t s h p hp; exact cleanupAll_mem _ _ _ hp

theorem pipelineRest_clean (env : Env) (fs : FS) (registered : List String)
    (events : List Event) (ap vp : Option String) (uo : JsonVal) :
    Clean (pipelineRest env fs registered events ap vp uo) := by
  unfold pipelineRest
  dsimp only
  repeat' split
  all_goals first
    | exact tas_clean _ _ _ _ _ _
    | (intro t s h; simp at h)

theorem summarize_video_clean (env : Env) (tempDir : String) (req : Request) :
    Clean (summarize_video env tempDir req) := by
  unfold summarize_video
  dsimp only
  repeat' split
  all_goals first
    | exact pipelineRest_clean _ _ _ _ _ _ _
    | (intro t s h; simp at h)

/-- C1 (counterexample): the claim "every artifact path registered in the
per-request cleanup list no longer exists on disk after the run; cleanup runs
identically on the Done and Failed paths" is false on the failure path.  In a
run where the download succeeds, audio is extracted, and transcription
raises, the handler answers 500 from its `except` clause without ever
reaching the cleanup loop, and the registered downloaded file (among others)
still exists afterwards. -/
theorem cleanup_skipped_on_failure_cex :
    (summarize_video envTransFail "temp/t1" reqJsonUrl).response =
        .serverErr "Error transcribing audio: boom" ∧
    ¬ (∀ p ∈ (summarize_video envTransFail "temp/t1" reqJsonUrl).registered,
        (summarize_video envTransFail "temp/t1" reqJsonUrl).fs p = none) := by
  constructor
  · decide
  · decide

/-- C1 (amended): cleanup runs only on the success path.  Whenever a run
answers 200, every artifact path registered in its cleanup list (downloaded
file, its scratch directory, saved upload, extracted audio) no longer exists
afterwards; on the failure path the cleanup loop is skipped. -/
theorem cleanup_success_path_removes_registered (env : Env) (tempDir : String)
    (req : Request) (t s : String)
    (h : (summarize_video env tempDir req).response = .ok t s) :
    ∀ p ∈ (summarize_video env tempDir req).registered,
      (summarize_video env tempDir req).fs p = none :=
  summarize_video_clean env tempDir req t s h

/-- C1 witness: a successful URL run removes its downloaded file. -/
theorem cleanup_success_path_removes_registered_witness :
    (summarize_video envOkDl "temp/t1" reqJsonUrl).fs "temp/t1/vid.mp4" = none :=
  cleanup_success_path_removes_registered envOkDl "temp/t1" reqJsonUrl
    "hello world" "hello world" (by decide) "temp/t1/vid.mp4" (by decide)

/-! ### Download-fallback lemmas (strategy loop) -/

theorem downloadAttempts_first_success (outcomes : List DLOutcome) (acc : Option String)
    (i : Nat) (p : String) (hi : outcomes[i]? = some (.found p))
    (hprev : ∀ j, j < i → ∀ o, outcomes[j]? = some o → o.isFound = false) :
    downloadAttempts outcomes acc = (.ok p, i + 1) := by
  induction outcomes generalizing i acc with
  | nil => simp at hi
  | cons o rest ih =>
      cases i with
      | zero =>
          simp only [List.getElem?_cons_zero, Option.some.injEq] at hi
          subst hi
          rfl
      | succ n =>
          have h0 := hprev 0 (Nat.succ_pos n) o (by simp)
          cases o with
          | found q => simp [DLOutcome.isFound] at h0
          | err m =>
              simp only [downloadAttempts]
              rw [ih (some m) n (by simpa using hi)
                (fun j hj o' ho' => hprev (j + 1) (Nat.succ_lt_succ hj) o' (by simpa using ho'))]
          | notFound =>
              simp only [downloadAttempts]
              rw [ih acc n (by simpa using hi)
                (fun j hj o' ho' => hprev (j + 1) (Nat.succ_lt_succ hj) o' (by simpa using ho'))]

theorem downloadAttempts_tried_means_failed (outcomes : List DLOutcome) (acc : Option String)
    (j : Nat) (o : DLOutcome) (hj : j + 1 < (downloadAttempts outcomes acc).2)
    (ho : outcomes[j]? = some o) : o.isFound = false := by
  induction outcomes generalizing acc j with
  | nil => simp [downloadAttempts] at hj
  | cons head rest ih =>
      cases head with
      | found p => simp [downloadAttempts] at hj
      | err m =>
          cases j with
          | zero =>
              simp only [List.getElem?_cons_zero, Option.some.injEq] at ho
              subst ho; rfl
          | succ n =>
              simp only [downloadAttempts] at hj
              exact ih (some m) n (by omega) (by simpa using ho)
      | notFound =>
          cases j with
          | zero =>
              simp only [List.getElem?_cons_zero, Option.some.injEq] at ho
              subst ho; rfl
          | succ n =>
              simp only [downloadAttempts] at hj
              exact ih acc n (by omega) (by simpa using ho)

/-- The `last_error` the loop would report, starting from accumulator `acc`. -/
def lastOr (acc : Option String) (l : List String) : Option String :=
  match l with
  | [] => acc
  | _ => l.getLast?

theorem downloadAttempts_all_fail (outcomes : List DLOutcome) (acc : Option String)
    (hall : ∀ o ∈ outcomes, o.isFound = false) :
    downloadAttempts outcomes acc =
      (.error (failMsg (lastOr acc (outcomes.filterMap dlErrMsg))), outcomes.length) := by
  induction outcomes generalizing acc with
  | nil => rfl
  | cons o rest ih =>
      have ho := hall o (List.mem_cons_self o rest)
      have hrest := fun o' ho' => hall o' (List.mem_cons_of_mem o ho')
      cases o with
      | found p => simp [DLOutcome.isFound] at ho
      | err m =>
          simp only [downloadAttempts, ih (some m) hrest]
          refine Prod.ext ?_ (by simp)
          have : lastOr acc ((DLOutcome.err m :: rest).filterMap dlErrMsg) =
              lastOr (some m) (rest.filterMap dlErrMsg) := by
            simp only [List.filterMap_cons, dlErrMsg]
            cases h : rest.filterMap dlErrMsg with
            | nil => simp [lastOr]
            | cons x xs => simp [lastOr, List.getLast?_cons_cons]
          simp [this]
      | notFound =>
          simp only [downloadAttempts, ih acc hrest]
          refine Prod.ext ?_ (by simp)
          simp [List.filterMap_cons, dlErrMsg]

/-- C2: the resolver tries the four download configurations strictly in their
listed order (audio-only first, then video at most 720p, then at most 480p,
then worst quality); configuration `i+1` is attempted only after
configuration `i` failed; the loop stops at the first success and returns
that configuration's file; and when every configuration fails the raised
error carries the last recorded underlying error. -/
theorem download_fallback_order :
    (strategies.map Strategy.format =
      ["bestaudio/best", "best[height<=720]/best", "best[height<=480]/best", "worst"]) ∧
    (∀ env tempDir, download_youtube_video env tempDir =
      (downloadAttempts (strategyOutcomes env tempDir) none).1) ∧
    (∀ outcomes i p, outcomes[i]? = some (DLOutcome.found p) →
      (∀ j, j < i → ∀ o, outcomes[j]? = some o → o.isFound = false) →
      downloadAttempts outcomes none = (.ok p, i + 1)) ∧
    (∀ outcomes j o, j + 1 < (downloadAttempts outcomes none).2 →
      outcomes[j]? = some o → o.isFound = false) ∧
    (∀ outcomes, (∀ o ∈ outcomes, o.isFound = false) →
      downloadAttempts outcomes none =
        (.error (failMsg ((outcomes.filterMap dlErrMsg).getLast?)), outcomes.length)) := by
  refine ⟨rfl, fun _ _ => rfl, ?_, ?_, ?_⟩
  · exact fun outcomes i p hi hprev => downloadAttempts_first_success outcomes none i p hi hprev
  · exact fun outcomes j o hj ho => downloadAttempts_tried_means_failed outcomes none j o hj ho
  · intro outcomes hall
    have h := downloadAttempts_all_fail outcomes none hall
    have : lastOr none (outcomes.filterMap dlErrMsg) = (outcomes.filterMap dlErrMsg).getLast? := by
      cases outcomes.filterMap dlErrMsg <;> rfl
    rwa [this] at h

/-- C2 witness: with strategy 1 raising `a` and strategy 2 succeeding, the
loop returns strategy 2's file after exactly two attempts; with outcomes
raise/`notFound`/raise over three attempts, the loop exhausts the list and
the raised message carries the last recorded error `c`. -/
theorem download_fallback_order_witness :
    downloadAttempts [DLOutcome.err "a", DLOutcome.found "f", DLOutcome.err "z"] none =
      (.ok "f", 2) ∧
    downloadAttempts [DLOutcome.err "a", DLOutcome.notFound, DLOutcome.err "c"] none =
      (.error (failMsg (some "c")), 3) := by
  constructor
  · refine download_fallback_order.2.2.1 _ 1 "f" (by decide) ?_
    intro j hj o ho
    cases j with
    | zero =>
        simp only [List.getElem?_cons_zero, Option.some.injEq] at ho
        subst ho; rfl
    | succ n => omega
  · exact download_fallback_order.2.2.2.2 _ (by decide)

/-- C3: the local summarization method splits on the literal `". "`; with at
most 5 sentences it returns the text unchanged, and with more than 5 it
returns the first 3 sentences joined with `". "` (plus a closing period)
followed by a bulleted `Key points` list of the next 5 sentences (sentences
4 through 8, i.e. up to 5 of them). -/
theorem local_summary_spec (text : String) :
    ((pySplit ". " text).length ≤ 5 → localSummarize text = text) ∧
    ((pySplit ". " text).length > 5 →
      localSummarize text =
        pyJoin ". " ((pySplit ". " text).take 3) ++ "." ++ "\n\nKey points:\n- " ++
          pyJoin "\n- " (((pySplit ". " text).drop 3).take 5)) := by
  constructor
  · intro h
    unfold localSummarize
    rw [if_neg (by omega)]
  · intro h
    unfold localSummarize
    rw [if_pos (by omega)]
    simp [pySlice, List.drop_take]

/-- C3 witness: a 2-sentence text is returned unchanged; a 7-sentence text
yields 3 lead sentences and 4 key points (the clamped `sentences[3:8]`). -/
theorem local_summary_spec_witness :
    localSummarize "hi there. bye" = "hi there. bye" ∧
    localSummarize "a. b. c. d. e. f. g" = "a. b. c.\n\nKey points:\n- d\n- e\n- f\n- g" := by
  constructor
  · exact (local_summary_spec "hi there. bye").1 (by decide)
  · exact ((local_summary_spec "a. b. c. d. e. f. g").2 (by decide)).trans (by decide)

/-- C4: when the external chat-completion call errors, `summarize_text` with
`use_openai` set falls through to the local method, returning exactly what
the `use_openai = false` call returns; the summarizer never fails the
request. -/
theorem summarize_api_error_fallback (env : Env) (text e : String)
    (h : env.openaiCall text = .error e) :
    summarize_text env text (.jbool true) = summarize_text env text (.jbool false) := by
  unfold summarize_text
  cases hk : hasApiKey env with
  | false => simp [JsonVal.truthy, hk]
  | true => simp [JsonVal.truthy, hk, h]

/-- Downloader and extraction irrelevant; API key configured but the
chat-completion call always errors. -/
def envApiDown : Env :=
  ⟨fun _ => .notFound, fun _ => none, fun _ => .ok "", some "sk-test",
    fun _ => .error "down"⟩

/-- C4 witness: with a configured key and an erroring API, the external-path
call equals the local-path call. -/
theorem summarize_api_error_fallback_witness :
    summarize_text envApiDown "x. y" (.jbool true) =
      summarize_text envApiDown "x. y" (.jbool false) :=
  summarize_api_error_fallback envApiDown "x. y" "down" rfl

/-! ### Event and cleanup-list monotonicity of the pipeline tail -/

theorem tas_events_mono (env : Env) (fs : FS) (registered : List String)
    (events : List Event) (a : String) (uo : JsonVal) (e : Event) (h : e ∈ events) :
    e ∈ (transcribeAndSummarize env fs registered events a uo).events := by
  unfold transcribeAndSummarize
  cases transcribe_audio env a <;> exact List.mem_append_left _ h

theorem pipelineRest_events_mono (env : Env) (fs : FS) (registered : List String)
    (events : List Event) (ap vp : Option String) (uo : JsonVal) (e : Event)
    (h : e ∈ events) : e ∈ (pipelineRest env fs registered events ap vp uo).events := by
  unfold pipelineRest
  dsimp only
  repeat' split
  all_goals first
    | exact tas_events_mono _ _ _ _ _ _ _ h
    | exact tas_events_mono _ _ _ _ _ _ _ (List.mem_append_left _ h)
    | exact List.mem_append_left _ h

theorem tas_registered_eq (env : Env) (fs : FS) (registered : List String)
    (events : List Event) (a : String) (uo : JsonVal) :
    (transcribeAndSummarize env fs registered events a uo).registered = registered := by
  unfold transcribeAndSummarize
  cases transcribe_audio env a <;> rfl

theorem pipelineRest_registered_mono (env : Env) (fs : FS) (registered : List String)
    (events : List Event) (ap vp : Option String) (uo : JsonVal) (p : String)
    (h : p ∈ registered) : p ∈ (pipelineRest env fs registered events ap vp uo).registered := by
  unfold pipelineRest
  dsimp only
  repeat' split
  all_goals first
    | (rw [tas_registered_eq]; exact h)
    | (rw [tas_registered_eq]; exact List.mem_append_left _ h)
    | exact h

/-- A form request carrying both a URL and a disallowed-extension upload. -/
def reqBothBad : Request := .form ⟨some "http://y", some "evil.txt", none⟩

/-- C5 (counterexample): the claim "for every uploaded file with a
disallowed extension the service returns 400 and performs no download" fails
when the request also carries a URL: the handler takes the URL branch first,
never validates the upload, downloads, and can even answer 200. -/
theorem bad_extension_url_precedence_cex :
    allowed_file "evil.txt" = false ∧
    Event.download ∈ (summarize_video envOkDl "temp/t1" reqBothBad).events ∧
    (summarize_video envOkDl "temp/t1" reqBothBad).response =
      .ok "hello world" "hello world" := by
  refine ⟨by decide, ?_, by decide⟩
  decide

/-- C5 (amended): for every request that supplies an uploaded file with a
disallowed extension and no (truthy) URL, the service answers a 400
validation error and performs no download, no audio extraction and no
transcription. -/
theorem bad_extension_rejected_no_url (env : Env) (tempDir : String) (u : Option String)
    (fname : String) (uo : Option String) (hu : strTruthy u = false)
    (hf : allowed_file fname = false) :
    (∃ m, (summarize_video env tempDir (.form ⟨u, some fname, uo⟩)).response =
      .clientErr m) ∧
    (summarize_video env tempDir (.form ⟨u, some fname, uo⟩)).events = [] := by
  unfold summarize_video
  simp only [Request.youtubeUrl, Request.videoFile, Request.useOpenaiVal, hu,
    Bool.false_eq_true, if_false]
  by_cases hne : fname = ""
  · simp [hne]
  · simp [hne, hf]

/-- C5 witness: an upload-only request with extension `txt` is rejected with
no pipeline action. -/
theorem bad_extension_rejected_no_url_witness :
    (∃ m, (summarize_video envOkDl "temp/t1"
      (.form ⟨none, some "evil.txt", none⟩)).response = .clientErr m) ∧
    (summarize_video envOkDl "temp/t1" (.form ⟨none, some "evil.txt", none⟩)).events = [] :=
  bad_extension_rejected_no_url envOkDl "temp/t1" none "evil.txt" none (by decide) (by decide)

/-- C6: after a successful download, when the produced file's (lowercased)
extension is one of `.wav/.m4a/.mp3/.opus/.ogg` the run performs no audio
extraction at all and transcribes the downloaded file directly; otherwise
the run extracts audio from exactly that downloaded file. -/
theorem audio_extension_skips_extraction (env : Env) (tempDir : String) (req : Request)
    (f : String) (hurl : strTruthy req.youtubeUrl = true)
    (hdl : download_youtube_video env tempDir = .ok f) :
    (audio_extensions.contains (pyLower (splitextExt f)) = true →
      (∀ v, Event.extract v ∉ (summarize_video env tempDir req).events) ∧
      Event.transcribe f ∈ (summarize_video env tempDir req).events) ∧
    (audio_extensions.contains (pyLower (splitextExt f)) = false →
      Event.extract f ∈ (summarize_video env tempDir req).events) := by
  unfold summarize_video
  simp only [hurl, if_true, hdl]
  constructor
  · intro hext
    simp only [hext, if_true]
    unfold pipelineRest transcribeAndSummarize
    cases h : transcribe_audio env f <;> simp [h]
  · intro hext
    simp only [hext, Bool.false_eq_true, if_false]
    unfold pipelineRest transcribeAndSummarize
    dsimp only
    cases hx : extract_audio env ((some f).getD "") with
    | error m => simp [hx]
    | ok a =>
        simp only [hx]
        cases h : transcribe_audio env a <;> simp [h]

/-- Downloader already produces an audio file (strategy 1's
FFmpegExtractAudio postprocessor writes a `.wav`). -/
def envAudioDl : Env :=
  ⟨fun _ => .found "talk.wav", fun _ => none, fun _ => .ok "hello", none,
    fun _ => .error "down"⟩

/-- C6 witness: a downloaded `.wav` is transcribed directly, with no
extraction event in the run. -/
theorem audio_extension_skips_extraction_witness :
    (∀ v, Event.extract v ∉ (summarize_video envAudioDl "temp/t1" reqJsonUrl).events) ∧
    Event.transcribe "temp/t1/talk.wav" ∈
      (summarize_video envAudioDl "temp/t1" reqJsonUrl).events :=
  (audio_extension_skips_extraction envAudioDl "temp/t1" reqJsonUrl "temp/t1/talk.wav"
    (by decide) rfl).1 (by decide)

/-- C8: when a form request supplies both a (truthy) URL and an uploaded
file, the run is identical to the same request without the upload — the
uploaded file is ignored entirely, its extension is never validated — and
the pipeline downloads the URL's media. -/
theorem url_precedence_ignores_upload (env : Env) (tempDir : String) (u fname : String)
    (uo : Option String) (hu : u ≠ "") :
    summarize_video env tempDir (.form ⟨some u, some fname, uo⟩) =
      summarize_video env tempDir (.form ⟨some u, none, uo⟩) ∧
    Event.download ∈ (summarize_video env tempDir (.form ⟨some u, some fname, uo⟩)).events := by
  have htr : strTruthy (some u) = true := by simp [strTruthy, hu]
  constructor
  · unfold summarize_video
    simp only [Request.youtubeUrl, Request.videoFile, Request.useOpenaiVal, htr, if_true]
  · unfold summarize_video
    simp only [Request.youtubeUrl, Request.videoFile, Request.useOpenaiVal, htr, if_true]
    cases download_youtube_video env tempDir with
    | error m => simp
    | ok f =>
        dsimp only
        split
        · exact pipelineRest_events_mono _ _ _ _ _ _ _ _ (List.mem_singleton_self _)
        · exact pipelineRest_events_mono _ _ _ _ _ _ _ _ (List.mem_singleton_self _)

/-- C8 witness: with a URL present, adding a (disallowed!) upload changes
nothing about the run, and the download still happens. -/
theorem url_precedence_ignores_upload_witness :
    summarize_video envOkDl "temp/t1" (.form ⟨some "http://y", some "evil.txt", none⟩) =
      summarize_video envOkDl "temp/t1" (.form ⟨some "http://y", none, none⟩) ∧
    Event.download ∈
      (summarize_video envOkDl "temp/t1"
        (.form ⟨some "http://y", some "evil.txt", none⟩)).events :=
  url_precedence_ignores_upload envOkDl "temp/t1" "http://y" "evil.txt" none (by decide)

/-- C9: the external-summarization flag is parsed asymmetrically.  A JSON
body's `use_openai` value is taken as-is (absent defaults to false) and its
Python truthiness decides whether the external call is attempted, so any
truthy JSON value (the string "1", the number 1, ...) enables it; a form
body's value enables it only when it equals `true` case-insensitively, so
form values like "1" or "yes" are treated as false. -/
theorem use_openai_parsing_asymmetry :
    (∀ url v, Request.useOpenaiVal (.json ⟨url, some v⟩) = v) ∧
    (∀ url, Request.useOpenaiVal (.json ⟨url, none⟩) = .jbool false) ∧
    (∀ url file s, Request.useOpenaiVal (.form ⟨url, file, some s⟩) =
      .jbool (pyLower s == "true")) ∧
    (∀ url file, Request.useOpenaiVal (.form ⟨url, file, none⟩) = .jbool false) ∧
    (∀ env text v, v.truthy = false → summarize_text env text v = localSummarize text) ∧
    (∀ env text v s, v.truthy = true → hasApiKey env = true →
      env.openaiCall text = .ok s → summarize_text env text v = s) ∧
    (JsonVal.truthy (.jstr "1") = true ∧ JsonVal.truthy (.jnum 1) = true ∧
      formUseOpenai (some "1") = false ∧ formUseOpenai (some "yes") = false ∧
      formUseOpenai (some "TRUE") = true ∧ formUseOpenai none = false) := by
  refine ⟨fun _ _ => rfl, fun _ => rfl, fun _ _ _ => rfl, fun _ _ => rfl, ?_, ?_, by decide⟩
  · intro env text v hv
    unfold summarize_text
    simp [hv]
  · intro env text v s hv hk hc
    unfold summarize_text
    simp [hv, hk, hc]

/-- Key configured and the chat-completion call succeeds with `SUM`. -/
def envApiOk : Env :=
  ⟨fun _ => .notFound, fun _ => none, fun _ => .ok "", some "sk-test", fun _ => .ok "SUM"⟩

/-- C9 witness: the truthy JSON string "1" reaches the external call, while
the form value "1" parses to false and stays local. -/
theorem use_openai_parsing_asymmetry_witness :
    summarize_text envApiOk "t" (.jstr "1") = "SUM" ∧
    summarize_text envApiOk "t" (Request.useOpenaiVal (.form ⟨none, none, some "1"⟩)) =
      localSummarize "t" :=
  ⟨use_openai_parsing_asymmetry.2.2.2.2.2.1 envApiOk "t" (.jstr "1") "SUM"
      (by decide) (by decide) rfl,
    use_openai_parsing_asymmetry.2.2.2.2.1 envApiOk "t" _ (by decide)⟩

/-- C10: the upload extension check rejects any filename without a dot, and
compares the part after the last dot case-insensitively against the
allow-list, so uppercase variants such as `MOVIE.MP4` are accepted (and a
multi-dot name is judged by its final extension only). -/
theorem allowed_file_last_dot_case_insensitive :
    (∀ f, pyHasChar f '.' = false → allowed_file f = false) ∧
    (∀ f, allowed_file f =
      (pyHasChar f '.' && ALLOWED_EXTENSIONS.contains (pyLower (afterLastDot f)))) ∧
    allowed_file "MOVIE.MP4" = true ∧ allowed_file "movie" = false ∧
    allowed_file "archive.tar.GZ" = false ∧ allowed_file "clip.Wmv" = true := by
  refine ⟨?_, fun _ => rfl, by decide, by decide, by decide, by decide⟩
  intro f h
  unfold allowed_file
  rw [h]
  rfl

/-- C10 witness: a dotless filename is rejected. -/
theorem allowed_file_last_dot_case_insensitive_witness :
    allowed_file "noext" = false :=
  allowed_file_last_dot_case_insensitive.1 "noext" (by decide)

/-! ### Path-structure lemmas for request privacy -/

/-- A string containing no path separator (`mkdtemp` leaf names and
yt-dlp-sanitized output file names are of this shape). -/
def slashFree (s : String) : Bool := s.data.all (fun c => c ≠ '/')

theorem strData_inj (s t : String) (h : s.data = t.data) : s = t := by
  cases s; cases t; exact congrArg String.mk h

theorem slashFree_mem (s : String) (hs : slashFree s = true) (c : Char)
    (hc : c ∈ s.data) : c ≠ '/' := by
  simpa using List.all_eq_true.mp hs c hc

theorem osPathJoin_slashFree (a n : String) (hn : slashFree n = true) :
    osPathJoin a n = a ++ "/" ++ n := by
  unfold osPathJoin
  cases hd : n.data with
  | nil => simp [hd]
  | cons c cs =>
      have hc : c ≠ '/' := slashFree_mem n hn c (by simp [hd])
      simp [hd, hc]

theorem dropWhile_append_all (p : Char → Bool) (l m : List Char)
    (h : ∀ c ∈ l, p c = true) : (l ++ m).dropWhile p = m.dropWhile p := by
  induction l with
  | nil => rfl
  | cons c cs ih =>
      rw [List.cons_append, List.dropWhile_cons, if_pos (h c (List.mem_cons_self c cs))]
      exact ih (fun c' hc' => h c' (List.mem_cons_of_mem _ hc'))

theorem dirname_append (d n : String) (hn : slashFree n = true) :
    dirname (d ++ "/" ++ n) = d := by
  have hdata : (d ++ "/" ++ n).data = d.data ++ '/' :: n.data := by
    simp [String.data_append]
  have hstep : (d ++ "/" ++ n).data.reverse.dropWhile (fun c => c ≠ '/') =
      '/' :: d.data.reverse := by
    rw [hdata]
    have hrev : (d.data ++ '/' :: n.data).reverse =
        n.data.reverse ++ '/' :: d.data.reverse := by
      simp [List.reverse_append]
    rw [hrev, dropWhile_append_all _ _ _
      (fun c hc => by simpa using slashFree_mem n hn c (List.mem_reverse.mp hc))]
    simp [List.dropWhile_cons]
  unfold dirname
  rw [hstep]
  simp only [List.drop_succ_cons, List.drop_zero, List.reverse_reverse]

theorem append_sep_inj : ∀ (xs ys xs' ys' : List Char),
    (∀ c ∈ xs, c ≠ '/') → (∀ c ∈ ys, c ≠ '/') →
    xs ++ '/' :: xs' = ys ++ '/' :: ys' → xs = ys ∧ xs' = ys'
  | [], [], _, _, _, _, h => by simpa using h
  | [], d :: ds, _, _, _, hy, h => by
      simp only [List.nil_append, List.cons_append, List.cons.injEq] at h
      exact absurd h.1.symm (hy d (List.mem_cons_self d ds))
  | c :: cs, [], _, _, hx, _, h => by
      simp only [List.nil_append, List.cons_append, List.cons.injEq] at h
      exact absurd h.1 (hx c (List.mem_cons_self c cs))
  | c :: cs, d :: ds, xs', ys', hx, hy, h => by
      simp only [List.cons_append, List.cons.injEq] at h
      obtain ⟨h1, h2⟩ := h
      have hrec := append_sep_inj cs ds xs' ys'
        (fun c' hc' => hx c' (List.mem_cons_of_mem _ hc'))
        (fun c' hc' => hy c' (List.mem_cons_of_mem _ hc')) h2
      exact ⟨by rw [h1, hrec.1], hrec.2⟩

theorem dlPath_data (d n : String) (hn : slashFree n = true) :
    (dlPath d n).data = d.data ++ '/' :: n.data := by
  unfold dlPath
  rw [osPathJoin_slashFree d n hn]
  simp [String.data_append]

/-- Two distinct upload-only requests that name the same file. -/
def reqUpload1 : Request := .form ⟨none, some "a.mp4", none⟩

/-- Same uploaded filename as `reqUpload1`, but a different request. -/
def reqUpload2 : Request := .form ⟨none, some "a.mp4", some "false"⟩

/-- C7 (counterexample): the claim "no two distinct requests ever operate on
the same path" fails: two distinct upload requests naming the same file are
both saved to `uploads/a.mp4` (and both derive `uploads/a_audio.wav`), even
with different scratch directories and different oracle environments. -/
theorem shared_upload_path_cex :
    reqUpload1 ≠ reqUpload2 ∧
    ¬ (∀ p ∈ (summarize_video envOkDl "temp/t1" reqUpload1).registered,
        p ∉ (summarize_video envTransFail "temp/t2" reqUpload2).registered) := by
  constructor
  · decide
  · decide

theorem upload_path_registered (env : Env) (tempDir f : String) (uo : Option String)
    (hf : f ≠ "") (ha : allowed_file f = true) :
    osPathJoin "uploads" f ∈
      (summarize_video env tempDir (.form ⟨none, some f, uo⟩)).registered := by
  unfold summarize_video
  simp only [Request.youtubeUrl, Request.videoFile, Request.useOpenaiVal]
  rw [if_neg (by simp [strTruthy])]
  rw [if_pos hf, if_neg (by simp [ha])]
  exact pipelineRest_registered_mono _ _ _ _ _ _ _ _ (List.mem_singleton_self _)

/-- C7 (amended): download scratch directories and the files placed inside
them are private per request — for two requests whose `mkdtemp` directories
`temp/s1`, `temp/s2` have distinct slash-free leaves, the scratch
directories and downloaded-file paths are pairwise distinct, and the
directory the run registers (`dirname` of the downloaded file) is exactly
its own scratch directory — but the persisted-upload path depends only on
the client-supplied filename: every request uploading filename `f` saves to
and registers the same `uploads/f`, so two requests uploading the same
filename operate on the same path. -/
theorem scratch_private_upload_shared :
    (∀ s1 s2 n1 n2 : String, slashFree s1 = true → slashFree s2 = true →
      slashFree n1 = true → slashFree n2 = true → s1 ≠ s2 →
      ("temp/" ++ s1 ≠ "temp/" ++ s2 ∧
        dlPath ("temp/" ++ s1) n1 ≠ dlPath ("temp/" ++ s2) n2 ∧
        dlPath ("temp/" ++ s1) n1 ≠ "temp/" ++ s2 ∧
        "temp/" ++ s1 ≠ dlPath ("temp/" ++ s2) n2)) ∧
    (∀ d n : String, slashFree n = true → dirname (dlPath d n) = d) ∧
    (∀ env1 env2 t1 t2 f uo1 uo2, f ≠ "" → allowed_file f = true →
      osPathJoin "uploads" f ∈
        (summarize_video env1 t1 (.form ⟨none, some f, uo1⟩)).registered ∧
      osPathJoin "uploads" f ∈
        (summarize_video env2 t2 (.form ⟨none, some f, uo2⟩)).registered) := by
  refine ⟨?_, ?_, ?_⟩
  · intro s1 s2 n1 n2 hs1 hs2 hn1 hn2 hs12
    refine ⟨?_, ?_, ?_, ?_⟩
    · intro h
      have h2 : ("temp/" : String).data ++ s1.data = ("temp/" : String).data ++ s2.data := by
        simpa [String.data_append] using congrArg String.data h
      exact hs12 (strData_inj _ _ (List.append_cancel_left h2))
    · intro h
      have hd := congrArg String.data h
      rw [dlPath_data _ _ hn1, dlPath_data _ _ hn2, String.data_append,
        String.data_append, List.append_assoc, List.append_assoc] at hd
      have hd2 := List.append_cancel_left hd
      exact hs12 (strData_inj _ _
        (append_sep_inj s1.data s2.data n1.data n2.data
          (slashFree_mem s1 hs1) (slashFree_mem s2 hs2) hd2).1)
    · intro h
      have hd := congrArg String.data h
      rw [dlPath_data _ _ hn1, String.data_append, String.data_append,
        List.append_assoc] at hd
      have hd2 := List.append_cancel_left hd
      have hmem : ('/' : Char) ∈ s2.data := by
        rw [← hd2]
        exact List.mem_append_right _ (List.mem_cons_self _ _)
      exact slashFree_mem s2 hs2 '/' hmem rfl
    · intro h
      have hd := congrArg String.data h.symm
      rw [dlPath_data _ _ hn2, String.data_append, String.data_append,
        List.append_assoc] at hd
      have hd2 := List.append_cancel_left hd
      have hmem : ('/' : Char) ∈ s1.data := by
        rw [← hd2]
        exact List.mem_append_right _ (List.mem_cons_self _ _)
      exact slashFree_mem s1 hs1 '/' hmem rfl
  · intro d n hn
    unfold dlPath
    rw [osPathJoin_slashFree d n hn]
    exact dirname_append d n hn
  · intro env1 env2 t1 t2 f uo1 uo2 hf ha
    exact ⟨upload_path_registered env1 t1 f uo1 hf ha,
      upload_path_registered env2 t2 f uo2 hf ha⟩

/-- C7 witness: two concrete requests with fresh scratch leaves have disjoint
scratch/download paths, while both `a.mp4` uploads register `uploads/a.mp4`. -/
theorem scratch_private_upload_shared_witness :
    ("temp/" ++ "t1" ≠ "temp/" ++ "t2" ∧
      dlPath ("temp/" ++ "t1") "v1.mp4" ≠ dlPath ("temp/" ++ "t2") "v2.mp4" ∧
      dlPath ("temp/" ++ "t1") "v1.mp4" ≠ "temp/" ++ "t2" ∧
      "temp/" ++ "t1" ≠ dlPath ("temp/" ++ "t2") "v2.mp4") ∧
    (osPathJoin "uploads" "a.mp4" ∈
      (summarize_video envOkDl "temp/t1" (.form ⟨none, some "a.mp4", none⟩)).registered ∧
     osPathJoin "uploads" "a.mp4" ∈
      (summarize_video envTransFail "temp/t2"
        (.form ⟨none, some "a.mp4", some "false"⟩)).registered) :=
  ⟨scratch_private_upload_shared.1 "t1" "t2" "v1.mp4" "v2.mp4"
      (by decide) (by decide) (by decide) (by decide) (by decide),
    scratch_private_upload_shared.2.2 envOkDl envTransFail "temp/t1" "temp/t2"
      "a.mp4" none (some "false") (by decide) (by decide)⟩

end VidSum
